import Mathlib

/-!
Shallow embedding of the go-finddd matcher engine (src/match.go) and proofs
about its behaviour.

Modelling conventions:
* Go strings are modelled as Lean `String`s operating on their `data`
  character lists (the paths relevant here are ASCII).
* `io/fs` metadata is a record of mode bits (`Nat`), size and modification
  time (`Int`, bytes resp. nanoseconds); a filesystem is a pair of partial
  functions for `fs.Stat` and `fs.ReadDir`, where `none` models a failing
  call.
* A Go `panic` (the `assert` helper in match.go) is modelled by an
  `Option` result: `none` means the call panics.
* The stateful `MaxResultMatcher` is modelled by explicit state passing;
  matcher lists in the composite are modelled as state transformers
  `σ → Bool × σ` over an abstract state type `σ`.
-/

/-- File metadata as exposed by Go's `io/fs`: mode bits, size in bytes and
modification time in nanoseconds. -/
structure FileInfo where
  mode : Nat
  size : Int
  modTime : Int
deriving DecidableEq

/-- An abstract filesystem supplying `fs.Stat` and `fs.ReadDir`;
a `none` result models a failing call. -/
structure FS where
  stat : String → Option FileInfo
  readDir : String → Option (List String)

/-- Go `io/fs.ModeDir` (bit 31). -/
def ModeDir : Nat := 2 ^ 31

/-- Go `io/fs.ModeSymlink` (bit 27). -/
def ModeSymlink : Nat := 2 ^ 27

/-- Go `io/fs.ModeDevice` (bit 26). -/
def ModeDevice : Nat := 2 ^ 26

/-- Go `io/fs.ModeNamedPipe` (bit 25). -/
def ModeNamedPipe : Nat := 2 ^ 25

/-- Go `io/fs.ModeSocket` (bit 24). -/
def ModeSocket : Nat := 2 ^ 24

/-- Go `io/fs.ModeCharDevice` (bit 21). -/
def ModeCharDevice : Nat := 2 ^ 21

/-- Go `io/fs.ModeIrregular` (bit 19). -/
def ModeIrregular : Nat := 2 ^ 19

/-- Go `io/fs.ModeType`: the union of all type bits. -/
def ModeType : Nat :=
  ModeDir ||| ModeSymlink ||| ModeNamedPipe ||| ModeSocket ||| ModeDevice |||
    ModeCharDevice ||| ModeIrregular

/-- Lower-case one character, models Go `strings.ToLower` on ASCII input:
characters `A`..`Z` are shifted by 32, everything else is unchanged. -/
def toLowerChar (c : Char) : Char :=
  if 'A' ≤ c ∧ c ≤ 'Z' then Char.ofNat (c.toNat + 32) else c

/-- Models Go `strings.ToLower` restricted to ASCII letters. -/
def toLowerStr (s : String) : String :=
  ⟨s.data.map toLowerChar⟩

/-- Whether a character is an ASCII upper-case letter. -/
def isUpperChar (c : Char) : Bool := decide ('A' ≤ c ∧ c ≤ 'Z')

/-- Models Go `strings.HasSuffix s v` on the character lists. -/
def hasSuffixStr (s v : String) : Bool := v.data.isSuffixOf s.data

/-- Models Go `strings.HasPrefix name "."`: the first character is a dot. -/
def startsWithDot (s : String) : Bool :=
  match s.data with
  | [] => false
  | c :: _ => c = '.'

/-- Models Go `path/filepath.Base` for Unix separators: strip trailing
slashes, then keep everything after the last slash; `""` gives `"."`,
an all-slash path gives `"/"`. -/
def base (path : String) : String :=
  if path = "" then "."
  else
    let r := (path.data.reverse.dropWhile (fun c => c = '/')).takeWhile (fun c => c ≠ '/')
    if r = [] then "/" else ⟨r.reverse⟩

/-- Stack step of `clean`: process the path components left to right,
skipping empty and `.` components, letting `..` pop a previous component
(kept verbatim when there is nothing to pop in a relative path, dropped at
the root of a rooted path). The accumulator holds the output components in
reverse order. -/
def cleanStack (rooted : Bool) : List (List Char) → List (List Char) → List (List Char)
  | acc, [] => acc.reverse
  | acc, comp :: rest =>
    if comp = [] ∨ comp = ['.'] then cleanStack rooted acc rest
    else if comp = ['.', '.'] then
      match acc with
      | [] => if rooted then cleanStack rooted [] rest
              else cleanStack rooted [['.', '.']] rest
      | top :: acc' =>
        if top = ['.', '.'] then cleanStack rooted (comp :: acc) rest
        else cleanStack rooted acc' rest
    else cleanStack rooted (comp :: acc) rest

/-- Models Go `path/filepath.Clean` for Unix paths by its documented rules:
replace multiple slashes by one, eliminate `.` components, eliminate
`..` together with the preceding component, keep leading `..` in relative
paths, and never go above the root of a rooted path; the empty path cleans
to `"."`. -/
def clean (path : String) : String :=
  if path = "" then "."
  else
    let rooted := path.data.head? = some '/'
    let comps := path.data.splitOn '/'
    let body := List.intercalate ['/'] (cleanStack rooted [] comps)
    if rooted then ⟨'/' :: body⟩
    else if body = [] then "." else ⟨body⟩

/-- Models Go `path/filepath.SplitList` for Unix: the empty string yields
the empty list, anything else is split on the list separator `:`.
Note this splits PATH-style lists, not path components. -/
def splitList (s : String) : List String :=
  if s = "" then []
  else (s.data.splitOn ':').map (fun l => (⟨l⟩ : String))

/-- Runs a list of matchers (modelled as state transformers) over a state,
as `MultiMatcher.Match` (src/match.go:29-36) does: evaluate in order, stop
with `false` at the first matcher that fails, otherwise return `true`. -/
def runMatchers {σ : Type} : List (σ → Bool × σ) → σ → Bool × σ
  | [], s => (true, s)
  | v :: rest, s =>
    if (v s).1 then runMatchers rest (v s).2 else (false, (v s).2)

/-- The composite matcher (src/match.go:22-36): an ordered list of matchers
over a common state type. -/
structure MultiMatcher (σ : Type) where
  ms : List (σ → Bool × σ)

/-- Embeds `MultiMatcher.Add` (src/match.go:26-28): append to the list. -/
def MultiMatcher.Add {σ : Type} (m : MultiMatcher σ) (new : List (σ → Bool × σ)) :
    MultiMatcher σ :=
  ⟨m.ms ++ new⟩

/-- Embeds `MultiMatcher.Match` (src/match.go:29-36). -/
def MultiMatcher.Match {σ : Type} (m : MultiMatcher σ) (s : σ) : Bool × σ :=
  runMatchers m.ms s

/-- Spec-side description of the composite: every configured matcher,
evaluated in registration order with the state threaded through, returned
`true`. -/
def AllTrue {σ : Type} : List (σ → Bool × σ) → σ → Prop
  | [], _ => True
  | v :: rest, s => (v s).1 = true ∧ AllTrue rest (v s).2

/-- The suffix matcher (src/match.go:55-57). -/
structure SuffixMatcher where
  suffixes : List String

/-- Embeds `SuffixMatcher.Match` (src/match.go:59-70); the `fs.FS` argument
is unused in the source and omitted here. -/
def SuffixMatcher.Match (m : SuffixMatcher) (path : String) : Bool :=
  if m.suffixes.isEmpty then true
  else
    let name := toLowerStr (base path)
    m.suffixes.any (fun v => hasSuffixStr name v)

/-- The file-type tags (src/match.go:89-99): `FT_FILE`, `FT_DIRECTORY`,
`FT_SYMLINK`, `FT_EXECUTABLE`, `FT_EMPTY`, `FT_SOCKET`, `FT_PIPE`. -/
inductive FileType where
  | file
  | directory
  | symlink
  | executable
  | empty
  | socket
  | pipe
deriving DecidableEq

/-- Embeds the per-type closures built by `FiletypeMatcher.Match`
(src/match.go:114-140), exactly as written in the source: note that the
tests for directory, symlink, socket and pipe compare the masked mode
against zero, and the `FT_EMPTY` closure reuses the `FT_FILE` and
`FT_DIRECTORY` closures. -/
def ftTest (fsys : FS) (path : String) (info : FileInfo) : FileType → Bool
  | .file => decide (info.mode &&& ModeType = 0)
  | .directory => decide (info.mode &&& ModeDir = 0)
  | .symlink => decide (info.mode &&& ModeSymlink = 0)
  | .executable => decide (info.mode &&& 0o111 > 0)
  | .socket => decide (info.mode &&& ModeSocket = 0)
  | .pipe => decide (info.mode &&& ModeNamedPipe = 0)
  | .empty =>
    if info.mode &&& ModeType = 0 then decide (info.size = 0)
    else if info.mode &&& ModeDir = 0 then
      match fsys.readDir path with
      | none => false
      | some des => decide (des.length = 0)
    else false

/-- The file-type matcher (src/match.go:101-103). -/
structure FiletypeMatcher where
  ftypes : List FileType

/-- Embeds `FiletypeMatcher.Match` (src/match.go:105-147): empty set
matches everything, a stat failure matches nothing, otherwise any of the
requested type tests succeeding suffices. -/
def FiletypeMatcher.Match (m : FiletypeMatcher) (fsys : FS) (path : String) : Bool :=
  if m.ftypes.isEmpty then true
  else
    match fsys.stat path with
    | none => false
    | some info => m.ftypes.any (ftTest fsys path info)

/-- The change-time matcher (src/match.go:173-176); `Option Int` models the
nil-able `*time.Time` fields, instants are nanosecond counts. -/
structure ChangeTimeMatcher where
  older : Option Int
  newer : Option Int

/-- Embeds `ChangeTimeMatcher.Match` (src/match.go:178-198). `t.Before u`
is `t < u` and `t.After u` is `u < t` on instants; the `assert` that
`older` precedes `newer` (run only when both are set and the stat
succeeded) is modelled by `none` on violation. -/
def ChangeTimeMatcher.Match (m : ChangeTimeMatcher) (fsys : FS) (path : String) :
    Option Bool :=
  if m.older = none ∧ m.newer = none then some true
  else
    match fsys.stat path with
    | none => some false
    | some info =>
      let mtime := info.modTime
      let ok := true
      let ok := match m.older with
        | some o => ok && decide (o < mtime)
        | none => ok
      match m.newer with
      | some n =>
        match m.older with
        | some o => if o < n then some (ok && decide (mtime < n)) else none
        | none => some (ok && decide (mtime < n))
      | none => some ok

/-- The size matcher (src/match.go:227-230); a negative bound is the
"unset" sentinel (`NewSizeMatcher` initialises both to `-1`). -/
structure SizeMatcher where
  min : Int
  max : Int

/-- Embeds `SizeMatcher.Match` (src/match.go:232-250); the `assert` that
`min ≤ max` (run only when `max` is set and the stat succeeded) is
modelled by `none` on violation. -/
def SizeMatcher.Match (m : SizeMatcher) (fsys : FS) (path : String) : Option Bool :=
  if m.min < 0 ∧ m.max < 0 then some true
  else
    match fsys.stat path with
    | none => some false
    | some info =>
      let size := info.size
      let ok := true
      let ok := if 0 ≤ m.min then ok && decide (m.min ≤ size) else ok
      if 0 ≤ m.max then
        if m.min ≤ m.max then some (ok && decide (size ≤ m.max)) else none
      else some ok

/-- The hidden matcher (src/match.go:268-270). -/
structure HiddenMatcher where
  hidden : Bool

/-- Embeds `HiddenMatcher.Match` (src/match.go:272-277), exactly as written
in the source: when `hidden` is false the result is
`strings.HasPrefix(filepath.Base(path), ".")` with no negation. The
`fs.FS` argument is unused in the source and omitted here. -/
def HiddenMatcher.Match (m : HiddenMatcher) (path : String) : Bool :=
  if m.hidden then true
  else startsWithDot (base path)

/-- The depth matcher (src/match.go:322-326); negative bounds are the
"unset" sentinel. -/
structure DepthMatcher where
  cur : List String
  min : Int
  max : Int

/-- Embeds `NewDepthMatcher(cur, WithExactDepth(exact))`
(src/match.go:301-320): the root is cleaned and then split with
`filepath.SplitList`, and the exact-depth option sets `min = max`. -/
def newDepthMatcherExact (cur : String) (exact : Int) : DepthMatcher :=
  { cur := splitList (clean cur), min := exact, max := exact }

/-- Embeds `DepthMatcher.Match` (src/match.go:328-340), exactly as written
in the source: the candidate is cleaned, the depth is the root's
`filepath.SplitList` length minus the candidate's, and the `assert` that
`min ≤ max` (run only when `max` is set) is modelled by `none` on
violation. The `fs.FS` argument is unused in the source and omitted
here. -/
def DepthMatcher.Match (m : DepthMatcher) (path : String) : Option Bool :=
  let p := clean path
  let depth : Int := (m.cur.length : Int) - ((splitList p).length : Int)
  let ok := true
  let ok := if 0 ≤ m.min then ok && decide (m.min ≤ depth) else ok
  if 0 ≤ m.max then
    if m.min ≤ m.max then some (ok && decide (depth ≤ m.max)) else none
  else some ok

/-- The result-cap matcher (src/match.go:359-362): a mutable counter and a
maximum; `NewMaxResultMatcher` initialises the counter to zero and the
maximum to the `-1` sentinel. -/
structure MaxResultMatcher where
  count : Int
  max : Int
deriving DecidableEq

/-- Embeds `MaxResultMatcher.Match` (src/match.go:364-373) with the state
passed explicitly: with a negative maximum every call succeeds and leaves
the counter alone, otherwise the call succeeds exactly when the counter is
below the maximum, incrementing it on success. -/
def MaxResultMatcher.Match (m : MaxResultMatcher) : Bool × MaxResultMatcher :=
  if m.max < 0 then (true, m)
  else
    let ok := decide (m.count < m.max)
    (ok, if ok then { m with count := m.count + 1 } else m)

/-- The results of `n` successive invocations of one `MaxResultMatcher`
instance, oldest first. -/
def runMaxResult : MaxResultMatcher → Nat → List Bool
  | _, 0 => []
  | m, n + 1 =>
    let r := m.Match
    r.1 :: runMaxResult r.2 n

/-- A filesystem holding a single empty directory `/d`
(mode `ModeDir ||| 0o755`). -/
def dirFS : FS :=
  { stat := fun p => if p = "/d" then some ⟨ModeDir ||| 0o755, 64, 0⟩ else none,
    readDir := fun p => if p = "/d" then some [] else none }

/-- A filesystem on which every stat and every directory listing fails. -/
def failFS : FS :=
  { stat := fun _ => none, readDir := fun _ => none }

/-- A filesystem with two regular files: `/a` of size 100 and `/b` of
size 101, both with modification time 7. -/
def sizeFS : FS :=
  { stat := fun p =>
      if p = "/a" then some ⟨0o644, 100, 7⟩
      else if p = "/b" then some ⟨0o644, 101, 7⟩
      else none,
    readDir := fun _ => none }

/-- Spec-side description of the change-time window: strictly after the
`older` cutoff when set and strictly before the `newer` cutoff when set. -/
def timeWindowOk (older newer : Option Int) (t : Int) : Prop :=
  (match older with | some o => o < t | none => True) ∧
  (match newer with | some n => t < n | none => True)

/-- Spec-side description of the size window: at least `min` when set and
at most `max` when set (a negative bound is "unset"). -/
def sizeWindowOk (mn mx sz : Int) : Prop :=
  (0 ≤ mn → mn ≤ sz) ∧ (0 ≤ mx → sz ≤ mx)

theorem toLowerChar_not_upper (c : Char) : isUpperChar (toLowerChar c) = false := by
  unfold toLowerChar isUpperChar
  split
  · rename_i h
    have hv2 : 65 ≤ c.toNat := h.1
    have hv : c.toNat ≤ 90 := h.2
    have hvalid : (c.toNat + 32).isValidChar := by
      left
      omega
    have htn : (Char.ofNat (c.toNat + 32)).toNat = c.toNat + 32 := by
      rw [Char.ofNat, dif_pos hvalid]
      simp [Char.ofNatAux, Char.toNat, UInt32.toNat, BitVec.toNat_ofNatLt]
    simp only [decide_eq_false_iff_not]
    intro hcon
    have h1 : ('A' : Char).toNat ≤ (Char.ofNat (c.toNat + 32)).toNat := hcon.1
    have h2 : (Char.ofNat (c.toNat + 32)).toNat ≤ ('Z' : Char).toNat := hcon.2
    rw [htn] at h1 h2
    have hz : ('Z' : Char).toNat = 90 := by decide
    rw [hz] at h2
    omega
  · rename_i h
    simp only [decide_eq_false_iff_not]
    exact h

theorem hasSuffixStr_lower_of_upper (s v : String)
    (h : ∃ c ∈ v.data, isUpperChar c = true) :
    hasSuffixStr (toLowerStr s) v = false := by
  rcases h with ⟨c, hc, hup⟩
  unfold hasSuffixStr toLowerStr
  rw [Bool.eq_false_iff]
  intro hsuf
  rw [List.isSuffixOf_iff_suffix] at hsuf
  have hmem : c ∈ (s.data.map toLowerChar) := hsuf.sublist.mem hc
  rcases List.mem_map.mp hmem with ⟨c', _, hc'⟩
  rw [← hc', toLowerChar_not_upper c'] at hup
  exact Bool.false_ne_true hup

/-- C1: the claim states that the directory test holds iff the mode's
directory bit is set and that Empty holds of a directory with an empty
listing. The code evaluated on an empty directory (mode `ModeDir ||| 0o755`,
whose listing is empty) rejects both the Directory and the Empty type
request, because the source's type tests compare the masked mode against
zero (`mode&fs.ModeDir == 0`), inverting the stated polarity. -/
theorem filetypeMatch_dir_polarity :
    (FiletypeMatcher.mk [.directory]).Match dirFS "/d" = false ∧
    (FiletypeMatcher.mk [.empty]).Match dirFS "/d" = false := by
  decide

/-- C2: the claim states that with `hidden = false` the path `/r/.git`
yields false and `/r/README` yields true. The code returns exactly the
opposite: `HiddenMatcher.Match` returns
`strings.HasPrefix(filepath.Base(path), ".")` without the negation the
stated inclusion policy requires. -/
theorem hiddenMatch_polarity :
    (HiddenMatcher.mk false).Match "/r/.git" = true ∧
    (HiddenMatcher.mk false).Match "/r/README" = false := by
  decide

/-- C3: the claim states that a matcher built with exact depth 1 at root
`/r` returns true for `/r/x`. The code splits both the root and the
candidate with `filepath.SplitList`, which splits on the list separator
`:` rather than on path components, so both sides have one component, the
computed depth is 0, and the matcher rejects `/r/x` (and also `/r/x/y`). -/
theorem depthMatch_splitlist :
    (newDepthMatcherExact "/r" 1).Match "/r/x" = some false ∧
    (newDepthMatcherExact "/r" 1).Match "/r/x/y" = some false := by
  decide

/-- C7: the suffix matcher accepts a path iff the configured set is empty
or some configured suffix is a plain string suffix of the lower-cased base
name; in particular `{".go"}` accepts `/r/a/main.go` and rejects
`/r/a/main.txt`. -/
theorem suffixMatch_spec :
    (∀ (m : SuffixMatcher) (p : String),
        m.Match p = true ↔
          m.suffixes = [] ∨
            ∃ s ∈ m.suffixes, s.data <:+ (toLowerStr (base p)).data) ∧
    (SuffixMatcher.mk [".go"]).Match "/r/a/main.go" = true ∧
    (SuffixMatcher.mk [".go"]).Match "/r/a/main.txt" = false := by
  refine ⟨?_, by decide, by decide⟩
  intro m p
  unfold SuffixMatcher.Match
  by_cases h : m.suffixes.isEmpty
  · rw [if_pos h]
    simp [List.isEmpty_iff.mp h]
  · rw [if_neg h]
    simp only [List.any_eq_true, hasSuffixStr, List.isSuffixOf_iff_suffix]
    constructor
    · rintro ⟨v, hv, hs⟩
      exact Or.inr ⟨v, hv, hs⟩
    · rintro (he | ⟨v, hv, hs⟩)
      · exact absurd (List.isEmpty_iff.mpr he) h
      · exact ⟨v, hv, hs⟩

/-- C10: a configured suffix containing an upper-case ASCII letter can
never contribute a match, because only the base name is lower-cased while
the suffixes are compared verbatim; a non-empty set consisting solely of
such suffixes therefore matches no path at all. -/
theorem suffixMatch_upper_never (m : SuffixMatcher)
    (hne : m.suffixes ≠ [])
    (hup : ∀ s ∈ m.suffixes, ∃ c ∈ s.data, isUpperChar c = true) :
    ∀ p : String, m.Match p = false := by
  intro p
  unfold SuffixMatcher.Match
  rw [if_neg (fun he => hne (List.isEmpty_iff.mp he))]
  rw [List.any_eq_false]
  intro v hv
  rw [hasSuffixStr_lower_of_upper (base p) v (hup v hv)]
  exact Bool.false_ne_true

/-- Witness for C10 at the concrete suffix set `{"GO"}` and path
`/a/b.GO`. -/
theorem suffixMatch_upper_never_witness :
    (SuffixMatcher.mk ["GO"]).Match "/a/b.GO" = false :=
  suffixMatch_upper_never ⟨["GO"]⟩ (by decide) (by decide) "/a/b.GO"


theorem runMaxResult_succ (m : MaxResultMatcher) (n : Nat) :
    runMaxResult m (n + 1) = m.Match.1 :: runMaxResult m.Match.2 n := rfl

theorem maxResultMatch_step (c k : Int) (hk : 0 ≤ k) :
    MaxResultMatcher.Match ⟨c, k⟩ =
      (decide (c < k), if c < k then ⟨c + 1, k⟩ else ⟨c, k⟩) := by
  unfold MaxResultMatcher.Match
  rw [if_neg (by omega : ¬ k < 0)]
  by_cases h : c < k
  · simp [h]
  · simp [h]

theorem runMaxResult_closed (k : Int) (hk : 0 ≤ k) (c : Int) (N : Nat) :
    runMaxResult ⟨c, k⟩ N =
      (List.range N).map (fun (i : Nat) => decide (c + (i : Int) < k)) := by
  induction N generalizing c with
  | zero => rfl
  | succ n ih =>
    rw [List.range_succ_eq_map, List.map_cons, List.map_map, runMaxResult_succ,
      maxResultMatch_step c k hk]
    dsimp only
    by_cases h : c < k
    · rw [if_pos h, ih (c + 1), decide_eq_true h]
      congr 1
      · symm
        simpa using h
      · refine List.map_congr_left fun i _ => ?_
        simp only [Function.comp_apply]
        exact decide_eq_decide.mpr (by push_cast; omega)
    · rw [if_neg h, ih c, decide_eq_false h]
      congr 1
      · symm
        simp only [decide_eq_false_iff_not]
        push_cast
        omega
      · refine List.map_congr_left fun i _ => ?_
        simp only [Function.comp_apply]
        exact decide_eq_decide.mpr (by push_cast; omega)

/-- C4: a result-cap matcher with maximum `k ≥ 0` and counter starting at
zero answers `true` on exactly the first `k` of any `N` successive
invocations and `false` on every later one (the `i`-th answer is
`i < k`); with the negative "unbounded" sentinel every invocation answers
`true` and leaves the counter unchanged. -/
theorem maxResultMatch_spec :
    (∀ (k : Nat) (N : Nat),
        runMaxResult ⟨0, (k : Int)⟩ N =
          (List.range N).map (fun (i : Nat) => decide (i < k))) ∧
    (∀ m : MaxResultMatcher, m.max < 0 → m.Match = (true, m)) := by
  constructor
  · intro k N
    rw [runMaxResult_closed (k : Int) (by positivity) 0 N]
    refine List.map_congr_left fun i _ => ?_
    exact decide_eq_decide.mpr (by omega)
  · intro m hm
    unfold MaxResultMatcher.Match
    rw [if_pos hm]

/-- Witness for C4: cap 2 over three invocations gives true, true, false;
the sentinel leaves the matcher untouched. -/
theorem maxResultMatch_spec_witness :
    runMaxResult ⟨0, ((2 : Nat) : Int)⟩ 3 = [true, true, false] ∧
    (MaxResultMatcher.mk 5 (-1)).Match = (true, ⟨5, -1⟩) := by
  constructor
  · rw [maxResultMatch_spec.1 2 3]
    decide
  · exact maxResultMatch_spec.2 ⟨5, -1⟩ (by decide)

theorem runMatchers_cons {σ : Type} (v : σ → Bool × σ) (rest : List (σ → Bool × σ))
    (s : σ) :
    runMatchers (v :: rest) s =
      if (v s).1 then runMatchers rest (v s).2 else (false, (v s).2) := rfl

theorem runMatchers_append_of_true {σ : Type} (l1 : List (σ → Bool × σ)) (s s' : σ)
    (h : runMatchers l1 s = (true, s')) (l2 : List (σ → Bool × σ)) :
    runMatchers (l1 ++ l2) s = runMatchers l2 s' := by
  induction l1 generalizing s with
  | nil =>
    unfold runMatchers at h
    injection h with _ h2
    rw [List.nil_append, h2]
  | cons v rest ih =>
    rw [List.cons_append, runMatchers_cons]
    rw [runMatchers_cons] at h
    by_cases hv : (v s).1 = true
    · rw [if_pos hv] at h ⊢
      exact ih (v s).2 h
    · rw [Bool.not_eq_true] at hv
      rw [hv] at h
      simp at h

theorem runMatchers_true_iff {σ : Type} (l : List (σ → Bool × σ)) (s : σ) :
    (runMatchers l s).1 = true ↔ AllTrue l s := by
  induction l generalizing s with
  | nil => simp [runMatchers, AllTrue]
  | cons v rest ih =>
    unfold runMatchers AllTrue
    by_cases hv : (v s).1 = true
    · rw [if_pos hv]
      simp [hv, ih]
    · rw [Bool.not_eq_true] at hv
      rw [hv]
      simp

/-- C8: the empty composite answers `(true, s)` on every state (identity
for AND); appending registers matchers in order; when the matchers before
some failing matcher all succeed, the composite stops at that matcher with
`false` and the matchers after it are never invoked (the result does not
depend on them); and the composite answers `true` exactly when every
configured matcher, run in registration order, answered `true`. -/
theorem multiMatch_spec :
    (∀ (σ : Type) (s : σ),
        (MultiMatcher.mk ([] : List (σ → Bool × σ))).Match s = (true, s)) ∧
    (∀ (σ : Type) (m : MultiMatcher σ) (new : List (σ → Bool × σ)),
        (m.Add new).ms = m.ms ++ new) ∧
    (∀ (σ : Type) (l1 : List (σ → Bool × σ)) (v : σ → Bool × σ)
        (l2 : List (σ → Bool × σ)) (s s' : σ),
        runMatchers l1 s = (true, s') → (v s').1 = false →
        (MultiMatcher.mk (l1 ++ v :: l2)).Match s = (false, (v s').2)) ∧
    (∀ (σ : Type) (m : MultiMatcher σ) (s : σ),
        (m.Match s).1 = true ↔ AllTrue m.ms s) := by
  refine ⟨fun σ s => rfl, fun σ m new => rfl, ?_, ?_⟩
  · intro σ l1 v l2 s s' h hv
    unfold MultiMatcher.Match
    rw [runMatchers_append_of_true l1 s s' h (v :: l2)]
    unfold runMatchers
    rw [hv]
    simp
  · intro σ m s
    exact runMatchers_true_iff m.ms s

/-- Witness for C8: over state type `Nat`, a succeeding matcher followed by
a failing one short-circuits past the third. -/
theorem multiMatch_spec_witness :
    (MultiMatcher.mk [fun s => (true, s + 1), fun s => (false, s * 2),
        fun s => (true, s + 5)] : MultiMatcher Nat).Match 3 = (false, 8) :=
  multiMatch_spec.2.2.1 Nat [fun s => (true, s + 1)] (fun s => (false, s * 2))
    [fun s => (true, s + 5)] 3 4 rfl rfl

/-- C5: under the construction invariant that a fully bounded window is
ordered, a change-time matcher whose stat succeeds answers `true` exactly
when the modification time lies strictly inside the open window, and the
`assert` cannot fire; with no bounds set it answers `true` on every
filesystem, even one on which every stat fails. -/
theorem changeTimeMatch_spec (m : ChangeTimeMatcher)
    (hord : ∀ o n, m.older = some o → m.newer = some n → o < n) :
    (∀ (fsys : FS) (path : String) (info : FileInfo),
        fsys.stat path = some info →
        (m.Match fsys path = some true ↔
          timeWindowOk m.older m.newer info.modTime) ∧
        m.Match fsys path ≠ none) ∧
    (m.older = none → m.newer = none →
        ∀ (fsys : FS) (path : String), m.Match fsys path = some true) := by
  constructor
  · intro fsys path info hstat
    unfold ChangeTimeMatcher.Match timeWindowOk
    rcases ho : m.older with _ | o <;> rcases hn : m.newer with _ | n
    · rw [if_pos ⟨rfl, rfl⟩]
      exact ⟨⟨fun _ => ⟨trivial, trivial⟩, fun _ => rfl⟩, by simp⟩
    · rw [if_neg (by simp), hstat]
      dsimp only
      refine ⟨?_, by simp⟩
      simp only [Option.some.injEq, Bool.true_and, decide_eq_true_eq, true_and]
    · rw [if_neg (by simp), hstat]
      dsimp only
      refine ⟨?_, by simp⟩
      simp only [Option.some.injEq, Bool.true_and, decide_eq_true_eq, and_true]
    · have hon : o < n := hord o n (by rw [ho]) (by rw [hn])
      rw [if_neg (by simp), hstat]
      dsimp only
      rw [if_pos hon]
      refine ⟨?_, by simp⟩
      simp only [Option.some.injEq, Bool.true_and, Bool.and_eq_true, decide_eq_true_eq]
  · intro h1 h2 fsys path
    unfold ChangeTimeMatcher.Match
    rw [if_pos ⟨h1, h2⟩]

/-- Witness for C5: window (5, 10) around modification time 7. -/
theorem changeTimeMatch_spec_witness :
    (ChangeTimeMatcher.mk (some 5) (some 10)).Match sizeFS "/a" = some true := by
  have hord : ∀ o n : Int, (some (5 : Int)) = some o → (some (10 : Int)) = some n →
      o < n := by
    intro o n ho hn
    injection ho with ho
    injection hn with hn
    omega
  refine ((changeTimeMatch_spec ⟨some 5, some 10⟩ hord).1 sizeFS "/a"
    ⟨0o644, 100, 7⟩ rfl).1.mpr ⟨?_, ?_⟩
  · show (5 : Int) < 7
    decide
  · show (7 : Int) < 10
    decide

/-- C6: under the construction invariant that a fully bounded pair is
ordered, a size matcher whose stat succeeds answers `true` exactly when
the size lies in the closed interval (an unset, negative bound is
unbounded), and the `assert` cannot fire; with both bounds unset it
answers `true` on every filesystem, even one on which every stat fails;
in particular bounds (0, 100) accept size 100 and reject size 101. -/
theorem sizeMatch_spec (m : SizeMatcher)
    (hord : 0 ≤ m.min → 0 ≤ m.max → m.min ≤ m.max) :
    (∀ (fsys : FS) (path : String) (info : FileInfo),
        fsys.stat path = some info →
        (m.Match fsys path = some true ↔ sizeWindowOk m.min m.max info.size) ∧
        m.Match fsys path ≠ none) ∧
    ((m.min < 0 ∧ m.max < 0) →
        ∀ (fsys : FS) (path : String), m.Match fsys path = some true) ∧
    (SizeMatcher.mk 0 100).Match sizeFS "/a" = some true ∧
    (SizeMatcher.mk 0 100).Match sizeFS "/b" = some false := by
  refine ⟨?_, ?_, by decide, by decide⟩
  · intro fsys path info hstat
    unfold SizeMatcher.Match sizeWindowOk
    rcases Int.lt_or_le m.min 0 with hmin | hmin <;>
      rcases Int.lt_or_le m.max 0 with hmax | hmax
    · rw [if_pos ⟨hmin, hmax⟩]
      refine ⟨⟨fun _ => ⟨fun h => by omega, fun h => by omega⟩, fun _ => rfl⟩, by simp⟩
    · rw [if_neg (by omega), hstat]
      dsimp only
      rw [if_neg (by omega : ¬ 0 ≤ m.min), if_pos hmax, if_pos (by omega : m.min ≤ m.max)]
      refine ⟨?_, by simp⟩
      simp only [Option.some.injEq, Bool.true_and, decide_eq_true_eq]
      omega
    · rw [if_neg (by omega), hstat]
      dsimp only
      rw [if_pos hmin, if_neg (by omega : ¬ 0 ≤ m.max)]
      refine ⟨?_, by simp⟩
      simp only [Option.some.injEq, Bool.true_and, decide_eq_true_eq]
      omega
    · have hmm : m.min ≤ m.max := hord hmin hmax
      rw [if_neg (by omega), hstat]
      dsimp only
      rw [if_pos hmin, if_pos hmax, if_pos hmm]
      refine ⟨?_, by simp⟩
      simp only [Option.some.injEq, Bool.true_and, Bool.and_eq_true, decide_eq_true_eq]
      omega
  · intro h fsys path
    unfold SizeMatcher.Match
    rw [if_pos h]

/-- Witness for C6: bounds (0, 100) accept the file `/a` of size 100. -/
theorem sizeMatch_spec_witness :
    (SizeMatcher.mk 0 100).Match sizeFS "/a" = some true := by
  refine ((sizeMatch_spec ⟨0, 100⟩ (fun _ _ => by decide)).1 sizeFS "/a"
    ⟨0o644, 100, 7⟩ rfl).1.mpr ⟨?_, ?_⟩
  · intro _
    decide
  · intro _
    decide

/-- C9: with at least one type or bound configured (and an ordered
configuration where both bounds are set), each stat-consulting matcher
answers plain `false` on a path whose stat fails: the failure is treated
as "does not match" and neither propagated nor raised. -/
theorem statFail_spec :
    (∀ (m : FiletypeMatcher) (fsys : FS) (path : String),
        m.ftypes ≠ [] → fsys.stat path = none → m.Match fsys path = false) ∧
    (∀ (m : ChangeTimeMatcher) (fsys : FS) (path : String),
        ¬(m.older = none ∧ m.newer = none) →
        (∀ o n, m.older = some o → m.newer = some n → o < n) →
        fsys.stat path = none → m.Match fsys path = some false) ∧
    (∀ (m : SizeMatcher) (fsys : FS) (path : String),
        ¬(m.min < 0 ∧ m.max < 0) →
        (0 ≤ m.min → 0 ≤ m.max → m.min ≤ m.max) →
        fsys.stat path = none → m.Match fsys path = some false) := by
  refine ⟨?_, ?_, ?_⟩
  · intro m fsys path hne hstat
    unfold FiletypeMatcher.Match
    rw [if_neg (fun he => hne (List.isEmpty_iff.mp he)), hstat]
  · intro m fsys path hne _ hstat
    unfold ChangeTimeMatcher.Match
    rw [if_neg hne, hstat]
  · intro m fsys path hne _ hstat
    unfold SizeMatcher.Match
    rw [if_neg hne, hstat]

/-- Witness for C9: on a filesystem where every stat fails, a file-type
request, a one-sided time bound and a size interval all answer false. -/
theorem statFail_spec_witness :
    (FiletypeMatcher.mk [.file]).Match failFS "/x" = false ∧
    (ChangeTimeMatcher.mk (some 0) none).Match failFS "/x" = some false ∧
    (SizeMatcher.mk 0 100).Match failFS "/x" = some false :=
  ⟨statFail_spec.1 ⟨[.file]⟩ failFS "/x" (by decide) rfl,
   statFail_spec.2.1 ⟨some 0, none⟩ failFS "/x" (by simp)
     (fun _ _ _ hn => Option.noConfusion hn) rfl,
   statFail_spec.2.2 ⟨0, 100⟩ failFS "/x" (by decide) (fun _ _ => by decide) rfl⟩
